import Mathlib

/-!
Shallow embedding of the `flipper` ink! contract (`src/lib.rs`).

Seeds (`Hash` values) are modelled as lists of byte values: a `List Nat`
whose entries are `< 256` and whose length is `32` (the `ValidSeed`
predicate).  The `u32` accumulator of `seed_to_value` is modelled by
addition modulo `2 ^ 32`.  Events are modelled as an explicit emitted-event
list returned next to the new storage value, and the `?` early return of
`flip_with_seed` is modelled by returning the unchanged state with an empty
event list.
-/

/-- The modulus of the `u32` type used by the accumulator in `seed_to_value`. -/
def U32_MOD : Nat := 4294967296

/-- Wrapping 32-bit addition, modelling addition of `u32` values. -/
def u32add (a b : Nat) : Nat := (a + b) % U32_MOD

/-- Error enum of the contract: `FlipperError` with its single variant `ZeroSum`. -/
inductive FlipperError where
  | ZeroSum
deriving DecidableEq, Fintype

/-- The `Flipped` event emitted when the flip functions are called, with its
`old` and `new` boolean fields. -/
structure Flipped where
  old : Bool
  new : Bool
deriving DecidableEq

/-- The contract storage struct `Flipper`, holding a single boolean `value`. -/
structure Flipper where
  value : Bool
deriving DecidableEq

/-- A well-formed seed for the `Hash` parameter: exactly 32 bytes, each byte
value in `[0, 255]`. -/
def ValidSeed (seed : List Nat) : Prop :=
  seed.length = 32 ∧ ∀ b ∈ seed, b < 256

instance (seed : List Nat) : Decidable (ValidSeed seed) := by
  unfold ValidSeed; infer_instance

/-- Embeds `let sum: u32 = seed.iter().map(|&b| b as u32).sum();` from
`seed_to_value`: a left fold of wrapping 32-bit addition over the byte
values, starting from `0`.  The `u8 → u32` cast is exact, so a byte
contributes its own value to each step. -/
def sumBytes (seed : List Nat) : Nat :=
  seed.foldl u32add 0

/-- Embeds `fn seed_to_value(seed: Hash) -> Result<bool, FlipperError>`:
sums the bytes into a `u32`, rejects a zero sum with `ZeroSum`
(the `ensure!` macro), and otherwise returns `sum % 2 == 0`. -/
def seed_to_value (seed : List Nat) : Except FlipperError Bool :=
  if sumBytes seed ≠ 0 then Except.ok (sumBytes seed % 2 == 0)
  else Except.error FlipperError.ZeroSum

/-- Embeds the constructor `Flipper::new(init_value: bool)`. -/
def Flipper.new (init_value : Bool) : Flipper :=
  { value := init_value }

/-- Embeds the constructor `Flipper::new_default()`, which calls
`Self::new(Default::default())`; the default boolean is `false`. -/
def Flipper.new_default : Flipper :=
  Flipper.new default

/-- Embeds the constructor `Flipper::from_seed(seed: Hash)`: derives the
value with `seed_to_value`, propagating its error via `?`. -/
def Flipper.from_seed (seed : List Nat) : Except FlipperError Flipper :=
  match seed_to_value seed with
  | Except.error e => Except.error e
  | Except.ok value => Except.ok { value := value }

/-- Embeds the message `Flipper::flip_with_seed(&mut self, seed: Hash)`.
Returns the post-call storage, the list of emitted events, and the message
result.  On the `?` early return the storage is unchanged and no event is
emitted; on success the assignment `self.value = new_value` happens first,
and the event is built afterwards with `old: !self.value` (reading the
already-updated value) and `new: new_value`. -/
def Flipper.flip_with_seed (self : Flipper) (seed : List Nat) :
    Flipper × List Flipped × Except FlipperError Bool :=
  match seed_to_value seed with
  | Except.error e => (self, [], Except.error e)
  | Except.ok new_value =>
      let self : Flipper := { self with value := new_value }
      (self, [{ old := !self.value, new := new_value }], Except.ok new_value)

/-- Embeds the message `Flipper::flip(&mut self)`: negates the stored value,
then emits `Flipped { old: !self.value, new: self.value }` from the
already-updated value. -/
def Flipper.flip (self : Flipper) : Flipper × List Flipped :=
  let self : Flipper := { self with value := !self.value }
  (self, [{ old := !self.value, new := self.value }])

/-- Embeds the message `Flipper::get(&self)`: returns the stored value. -/
def Flipper.get (self : Flipper) : Bool :=
  self.value

/-- Folding wrapping 32-bit addition never wraps while the accumulator plus
the remaining capacity stays within `u32` range: the fold computes the exact
sum. -/
lemma foldl_u32add_eq (seed : List Nat) (acc : Nat)
    (hb : ∀ b ∈ seed, b < 256)
    (hacc : acc + 256 * seed.length ≤ U32_MOD) :
    seed.foldl u32add acc = acc + seed.sum := by
  induction seed generalizing acc with
  | nil => simp
  | cons a t ih =>
      have ha : a < 256 := hb a (List.mem_cons_self a t)
      have hM : U32_MOD = 4294967296 := rfl
      rw [List.length_cons] at hacc
      rw [hM] at hacc
      have hlt : acc + a < U32_MOD := by rw [hM]; omega
      have h1 : u32add acc a = acc + a := by
        simp [u32add, Nat.mod_eq_of_lt hlt]
      rw [List.foldl_cons, h1,
        ih (acc + a) (fun b hbm => hb b (List.mem_cons_of_mem a hbm))
          (by rw [hM]; omega)]
      rw [List.sum_cons]
      omega

/-- For a valid 32-byte seed the `u32` accumulation equals the exact sum of
the byte values. -/
lemma sumBytes_eq_sum (seed : List Nat) (hv : ValidSeed seed) :
    sumBytes seed = seed.sum := by
  obtain ⟨hlen, hb⟩ := hv
  have h := foldl_u32add_eq seed 0 hb (by rw [hlen]; decide)
  simpa [sumBytes] using h

/-- A list of bytes each below 256 sums to at most 255 per element. -/
lemma sum_le_mul (l : List Nat) (hb : ∀ b ∈ l, b < 256) :
    l.sum ≤ 255 * l.length := by
  induction l with
  | nil => simp
  | cons a t ih =>
      have ha : a < 256 := hb a (List.mem_cons_self a t)
      have ht := ih (fun b hm => hb b (List.mem_cons_of_mem a hm))
      rw [List.sum_cons, List.length_cons]
      omega

/-- A sum of naturals is zero exactly when every element is zero. -/
lemma sum_zero_iff (l : List Nat) : l.sum = 0 ↔ ∀ b ∈ l, b = 0 := by
  induction l with
  | nil => simp
  | cons a t ih =>
      rw [List.sum_cons]
      constructor
      · intro h b hb
        rcases List.mem_cons.mp hb with hb | hb
        · omega
        · exact ih.mp (by omega) b hb
      · intro h
        have ha := h a (List.mem_cons_self a t)
        have ht := ih.mpr (fun b hb => h b (List.mem_cons_of_mem a hb))
        omega

/-- C1: for every state and every 32-byte seed with non-zero byte-sum,
`flip_with_seed` succeeds with some `new_value`, the stored value becomes
`new_value`, and the emitted `Flipped` event has its `old` field equal to
the negation of the new stored value (computed from `self.value` after the
assignment); hence the reported `old` equals `!new_value` and differs from
the true pre-mutation value whenever that value is not `!new_value`. -/
theorem flip_with_seed_old_from_new (s : Flipper) (seed : List Nat)
    (hv : ValidSeed seed) (hz : seed.sum ≠ 0) :
    ∃ nv : Bool,
      s.flip_with_seed seed =
        ({ value := nv }, [{ old := !nv, new := nv }], Except.ok nv) ∧
      (s.value ≠ (!nv) → (!nv) ≠ s.value) := by
  have he := sumBytes_eq_sum seed hv
  have hz' : sumBytes seed ≠ 0 := by rw [he]; exact hz
  refine ⟨sumBytes seed % 2 == 0, ?_, fun h hc => h hc.symm⟩
  have hok : seed_to_value seed = Except.ok (sumBytes seed % 2 == 0) := by
    simp [seed_to_value, hz']
  simp [Flipper.flip_with_seed, hok]

/-- Witness for C1 at the state `{ value := true }` and the seed
`0x01` followed by 31 zero bytes. -/
theorem flip_with_seed_old_from_new_witness :
    ∃ nv : Bool,
      Flipper.flip_with_seed { value := true } (1 :: List.replicate 31 0) =
        ({ value := nv }, [{ old := !nv, new := nv }], Except.ok nv) ∧
      ((Flipper.mk true).value ≠ (!nv) → (!nv) ≠ (Flipper.mk true).value) :=
  flip_with_seed_old_from_new { value := true } (1 :: List.replicate 31 0)
    (by decide) (by decide)

/-- C2: `flip` unconditionally sets the stored value to the negation of the
previous value, and the `Flipped` event it emits has `old` equal to the
pre-flip value and `new` equal to the post-flip value. -/
theorem flip_negates_and_reports_old (s : Flipper) :
    (s.flip).1.value = !s.value ∧
    (s.flip).2 = [{ old := s.value, new := !s.value }] := by
  refine ⟨rfl, ?_⟩
  simp [Flipper.flip]

/-- C3: on a 32-byte seed with non-zero byte-sum, `seed_to_value` returns
`ok` of the parity test `sum % 2 == 0` on the exact byte-sum; in particular
the seed `0x01` followed by 31 zero bytes yields `ok false`, and the seed
of 32 bytes all `0x02` yields `ok true`. -/
theorem seed_to_value_parity (seed : List Nat) (hv : ValidSeed seed)
    (hz : seed.sum ≠ 0) :
    seed_to_value seed = Except.ok (seed.sum % 2 == 0) ∧
    seed_to_value (1 :: List.replicate 31 0) = Except.ok false ∧
    seed_to_value (List.replicate 32 2) = Except.ok true := by
  have he := sumBytes_eq_sum seed hv
  have hz' : sumBytes seed ≠ 0 := by rw [he]; exact hz
  have hok : seed_to_value seed = Except.ok (sumBytes seed % 2 == 0) := by
    simp [seed_to_value, hz']
  refine ⟨?_, by rfl, by rfl⟩
  rw [hok, he]

/-- Witness for C3 at the seed of 32 bytes all `0x02`. -/
theorem seed_to_value_parity_witness :
    seed_to_value (List.replicate 32 2) =
      Except.ok ((List.replicate 32 2 : List Nat).sum % 2 == 0) ∧
    seed_to_value (1 :: List.replicate 31 0) = Except.ok false ∧
    seed_to_value (List.replicate 32 2) = Except.ok true :=
  seed_to_value_parity (List.replicate 32 2) (by decide) (by decide)

/-- C4: `seed_to_value` fails with `ZeroSum` exactly when the byte-sum is
zero, which for a valid seed holds exactly when every byte is zero; and
`ZeroSum` is the only variant of the error type. -/
theorem seed_to_value_zero_sum_iff (seed : List Nat) (hv : ValidSeed seed) :
    (seed_to_value seed = Except.error FlipperError.ZeroSum ↔ seed.sum = 0) ∧
    (seed.sum = 0 ↔ ∀ b ∈ seed, b = 0) ∧
    Fintype.card FlipperError = 1 := by
  have he := sumBytes_eq_sum seed hv
  refine ⟨?_, sum_zero_iff seed, rfl⟩
  by_cases h : seed.sum = 0
  · simp [seed_to_value, he, h]
  · simp [seed_to_value, he, h]

/-- Witness for C4 at the all-zero 32-byte seed. -/
theorem seed_to_value_zero_sum_iff_witness :
    (seed_to_value (List.replicate 32 0) = Except.error FlipperError.ZeroSum ↔
      (List.replicate 32 0 : List Nat).sum = 0) ∧
    ((List.replicate 32 0 : List Nat).sum = 0 ↔
      ∀ b ∈ (List.replicate 32 0 : List Nat), b = 0) ∧
    Fintype.card FlipperError = 1 :=
  seed_to_value_zero_sum_iff (List.replicate 32 0) (by decide)

/-- C5: when derivation fails (byte-sum zero), `flip_with_seed` returns
`ZeroSum`, leaves the stored value exactly as it was, and emits no event. -/
theorem flip_with_seed_zero_sum_unchanged (s : Flipper) (seed : List Nat)
    (hv : ValidSeed seed) (hz : seed.sum = 0) :
    s.flip_with_seed seed = (s, [], Except.error FlipperError.ZeroSum) := by
  have he := sumBytes_eq_sum seed hv
  have herr : seed_to_value seed = Except.error FlipperError.ZeroSum := by
    simp [seed_to_value, he, hz]
  simp [Flipper.flip_with_seed, herr]

/-- Witness for C5 at the state `{ value := true }` and the all-zero seed. -/
theorem flip_with_seed_zero_sum_unchanged_witness :
    Flipper.flip_with_seed { value := true } (List.replicate 32 0) =
      ({ value := true }, [], Except.error FlipperError.ZeroSum) :=
  flip_with_seed_zero_sum_unchanged { value := true } (List.replicate 32 0)
    (by decide) (by decide)

/-- C6: for every 32-byte seed, `from_seed` returns `ok` of a `Flipper`
whose value is the derived boolean when `seed_to_value` succeeds, and
propagates the `ZeroSum` error (creating no state) when it fails; this is
exactly mapping the state constructor over the derivation result. -/
theorem from_seed_map (seed : List Nat) (hv : ValidSeed seed) :
    Flipper.from_seed seed =
      Except.map (fun v => ({ value := v } : Flipper)) (seed_to_value seed) := by
  cases h : seed_to_value seed <;> simp [Flipper.from_seed, h, Except.map]

/-- Witness for C6 at the seed of 32 bytes all `0x02`. -/
theorem from_seed_map_witness :
    Flipper.from_seed (List.replicate 32 2) =
      Except.map (fun v => ({ value := v } : Flipper))
        (seed_to_value (List.replicate 32 2)) :=
  from_seed_map (List.replicate 32 2) (by decide)

/-- C7: applying `flip` twice restores the original value: `get` after two
consecutive flips equals `get` before them. -/
theorem flip_flip_get (s : Flipper) :
    ((s.flip).1.flip).1.get = s.get := by
  simp [Flipper.flip, Flipper.get]

/-- C8: `get` applied to `new b` returns `b`, and `new_default` always
yields a state whose value is `false`. -/
theorem new_get_and_default (b : Bool) :
    (Flipper.new b).get = b ∧ Flipper.new_default.value = false :=
  ⟨rfl, rfl⟩

/-- C9: for every valid 32-byte seed, the 32-bit accumulation in
`seed_to_value` never overflows: the computed `u32` sum equals the exact
mathematical sum of the byte values, which is at most `8160 = 32 * 255`. -/
theorem sumBytes_no_overflow (seed : List Nat) (hv : ValidSeed seed) :
    sumBytes seed = seed.sum ∧ seed.sum ≤ 8160 := by
  refine ⟨sumBytes_eq_sum seed hv, ?_⟩
  obtain ⟨hlen, hb⟩ := hv
  have h := sum_le_mul seed hb
  rw [hlen] at h
  omega

/-- Witness for C9 at the maximal seed of 32 bytes all `0xFF`. -/
theorem sumBytes_no_overflow_witness :
    sumBytes (List.replicate 32 255) = (List.replicate 32 255 : List Nat).sum ∧
    (List.replicate 32 255 : List Nat).sum ≤ 8160 :=
  sumBytes_no_overflow (List.replicate 32 255) (by decide)

/-- C10: `seed_to_value` depends only on the byte-sum: two valid seeds that
are permutations of one another — and more generally any two with equal
byte-sums — give identical results, both in the success value and in
whether `ZeroSum` is raised. -/
theorem seed_to_value_sum_only (s t : List Nat) (hs : ValidSeed s)
    (ht : ValidSeed t) :
    (s.Perm t → seed_to_value s = seed_to_value t) ∧
    (s.sum = t.sum → seed_to_value s = seed_to_value t) := by
  have hsum : s.sum = t.sum → seed_to_value s = seed_to_value t := by
    intro h
    simp only [seed_to_value, sumBytes_eq_sum s hs, sumBytes_eq_sum t ht, h]
  exact ⟨fun hp => hsum hp.sum_eq, hsum⟩

/-- Witness for C10 at the permuted seeds `[1, 2, 0, …]` and `[2, 1, 0, …]`. -/
theorem seed_to_value_sum_only_witness :
    (List.Perm (1 :: 2 :: List.replicate 30 0) (2 :: 1 :: List.replicate 30 0) →
      seed_to_value (1 :: 2 :: List.replicate 30 0) =
        seed_to_value (2 :: 1 :: List.replicate 30 0)) ∧
    ((1 :: 2 :: List.replicate 30 0 : List Nat).sum =
        (2 :: 1 :: List.replicate 30 0 : List Nat).sum →
      seed_to_value (1 :: 2 :: List.replicate 30 0) =
        seed_to_value (2 :: 1 :: List.replicate 30 0)) :=
  seed_to_value_sum_only (1 :: 2 :: List.replicate 30 0)
    (2 :: 1 :: List.replicate 30 0) (by decide) (by decide)
